import Mathlib

/-!
Verification of the botloader per-tenant scheduled-task manager and script VM.

The definitions below are a shallow embedding of the Rust sources:
  * `src/cmd/scheduler/src/scheduled_task_manager.rs` (the `Manager`),
  * `src/components/runtime/src/extensions/tasks.rs` (`op_bl_schedule_task`),
  * `src/components/vm/src/vm.rs` (`Vm`, `TickFuture`, `VmShutdownHandle`).

Timestamps are modelled as integers (UTC milliseconds).  The durable timer
store (the `scheduler::Store` / `TimerStore` trait) is implemented by code
that is not part of the excerpt, so its queries are modelled from the spec's
stated contract over an explicit list of stored tasks.
-/

/-- A scheduled task row, from the spec data model:
`{id, tenant, namespace, unique_key?, data, fire_at}`.  The tenant id is
omitted: every structure here is per tenant.  `data` is kept in serialized
form (the JSON string). -/
structure ScheduledTask where
  id : Nat
  ns : String
  unique_key : Option String
  data : String
  fire_at : Int
deriving DecidableEq

/-- Eligibility filter shared by the store queries: id not excluded and
namespace included.  Mirrors the `exclude_ids` / `include_namespaces`
parameters of the `TimerStore` capabilities. -/
def task_eligible (exclude_ids : List Nat) (include_namespaces : List String)
    (t : ScheduledTask) : Bool :=
  !(exclude_ids.contains t.id) && include_namespaces.contains t.ns

/-- Modelled from the spec: `TimerStore.get_next_task_time(tenant,
exclude_ids, include_namespaces) → Option<timestamp>` — the store
implementation is not under `src/`; per the spec it returns the earliest
`fire_at` among tasks whose id is not excluded and whose namespace is
included. -/
def get_next_task_time (store : List ScheduledTask) (exclude_ids : List Nat)
    (include_namespaces : List String) : Option Int :=
  (store.filter (task_eligible exclude_ids include_namespaces)).foldl
    (fun acc t =>
      match acc with
      | none => some t.fire_at
      | some v => some (min v t.fire_at))
    none

/-- Modelled from the spec: `TimerStore.get_triggered_tasks(tenant, now,
exclude_ids, include_namespaces) → [ScheduledTask]` — the store
implementation is not under `src/`; per the spec it returns all tasks with
`fire_at ≤ now`, id not excluded, namespace included. -/
def get_triggered_tasks (store : List ScheduledTask) (now : Int)
    (exclude_ids : List Nat) (include_namespaces : List String) :
    List ScheduledTask :=
  (store.filter (task_eligible exclude_ids include_namespaces)).filter
    (fun t => t.fire_at ≤ now)

/-- Modelled from the spec: `TimerStore.del_task_by_id(tenant, id) → u64`
(rows deleted) — the store implementation is not under `src/`. -/
def del_task_by_id (store : List ScheduledTask) (id : Nat) :
    List ScheduledTask × Nat :=
  let remaining := store.filter (fun t => !(t.id == id))
  (remaining, store.length - remaining.length)

/-- Modelled from the spec: `ScriptMeta` is defined in the
`runtime-models` internal module, which is not under `src/`.  Only the
fields the manager reads are kept (`commands`, `command_groups` and
`interval_timers` are irrelevant here). -/
structure ScriptMeta where
  script_id : Nat
  task_names : List String
deriving DecidableEq

/-- The per-tenant task-manager cursor, from
`scheduled_task_manager.rs`: outer `Option` of `next_task_time` is none
if not fetched; the inner one is none if no tasks remain. -/
structure Manager where
  next_task_time : Option (Option Int)
  pending : List Nat
  task_names : List String
deriving DecidableEq

/-- `Manager::new` (storage handle and guild id are implicit here). -/
def Manager.new : Manager :=
  { next_task_time := none, pending := [], task_names := [] }

/-- `NextTimerAction`: the result of `Manager::next_action`. -/
inductive NextAction
  | none
  | wait (until_time : Int)
  | run (tasks : List ScheduledTask)
deriving DecidableEq

/-- Whether a `NextAction` is a `Run` result. -/
def NextAction.is_run : NextAction → Bool
  | NextAction.run _ => true
  | _ => false

/-- `Manager::next_action` from `scheduled_task_manager.rs`.  The store is
modelled as the list of stored tasks and `now` as the current time, so the
store-error branches (which return `Wait(now + 10s)`) cannot arise in this
embedding.  If the cached `next_task_time` is unset it is fetched; a cached
inner `none` yields `NextAction.none`; otherwise, with cached time `t`, the
code triggers tasks only when `now > t` (strictly), pushing the ids of the
triggered tasks onto `pending` and clearing the cache, and returns
`Wait(t)` when `now ≤ t`. -/
def next_action (m : Manager) (now : Int) (store : List ScheduledTask) :
    Manager × NextAction :=
  let fetched : Option Int :=
    match m.next_task_time with
    | some v => v
    | none => get_next_task_time store m.pending m.task_names
  let m1 : Manager := { m with next_task_time := some fetched }
  match fetched with
  | none => (m1, NextAction.none)
  | some t =>
    if now > t then
      let triggered := get_triggered_tasks store now m1.pending m1.task_names
      ({ m1 with
          pending := m1.pending ++ triggered.map (fun x => x.id),
          next_task_time := none },
        NextAction.run triggered)
    else
      (m1, NextAction.wait t)

/-- The index search in `Manager::ack_triggered_task`:
`pending.iter().enumerate().find_map(...)`, i.e. the first index holding
`id`. -/
def find_pending_index (pending : List Nat) (id : Nat) : Option Nat :=
  pending.findIdx? (fun v => v == id)

/-- Rust `Vec::swap_remove(i)`: swap the element at `i` with the last
element, then pop the last element. -/
def vec_swap_remove (l : List Nat) (i : Nat) : List Nat :=
  match l.getLast? with
  | none => l
  | some b => (l.set i b).dropLast

/-- The pending-set update performed by `Manager::ack_triggered_task`:
`swap_remove` at the first index holding `id`, if any. -/
def ack_remove_pending (pending : List Nat) (id : Nat) : List Nat :=
  match find_pending_index pending id with
  | some i => vec_swap_remove pending i
  | none => pending

/-- The retry loop of `Manager::ack_triggered_task`: call
`del_task_by_id` until it succeeds, sleeping 5 seconds after each store
error.  `failures` is the number of times the store errors before finally
succeeding; the result pairs the store after the successful delete with
the number of 5-second sleeps performed. -/
def ack_del_loop (store : List ScheduledTask) (id : Nat) :
    Nat → List ScheduledTask × Nat
  | 0 => ((del_task_by_id store id).1, 0)
  | n + 1 =>
    let r := ack_del_loop store id n
    (r.1, r.2 + 1)

/-- Outcome of `ack_triggered_task`: the updated manager, the store after
the delete, and how many 5-second backoff sleeps happened.  The method has
no error outcome. -/
structure AckOutcome where
  manager : Manager
  store : List ScheduledTask
  sleeps_5s : Nat
deriving DecidableEq

/-- `Manager::ack_triggered_task` from `scheduled_task_manager.rs`:
remove `id` from `pending` (first occurrence, via `swap_remove`), then
delete the task from the store, retrying with a 5-second sleep on every
store error. -/
def ack_triggered_task (m : Manager) (id : Nat) (store : List ScheduledTask)
    (failures : Nat) : AckOutcome :=
  let pending2 := ack_remove_pending m.pending id
  let r := ack_del_loop store id failures
  { manager := { m with pending := pending2 }, store := r.1, sleeps_5s := r.2 }

/-- `Manager::clear_pending`. -/
def clear_pending (m : Manager) : Manager :=
  { m with pending := [] }

/-- `Manager::clear_next`. -/
def clear_next (m : Manager) : Manager :=
  { m with next_task_time := none }

/-- `Manager::clear_task_names`. -/
def clear_task_names (m : Manager) : Manager :=
  { m with task_names := [] }

/-- `Manager::script_started` from `scheduled_task_manager.rs`: push each
of `meta.task_names` not already present onto `task_names`, then
`clear_next`. -/
def script_started (m : Manager) (meta : ScriptMeta) : Manager :=
  let names :=
    meta.task_names.foldl
      (fun acc name => if acc.contains name then acc else acc ++ [name])
      m.task_names
  { m with task_names := names, next_task_time := none }

/-- The argument record of `op_bl_schedule_task`
(`CreateScheduledTask` in `runtime-models`): `data` is kept as its
serialized JSON string and `execute_at` as UTC milliseconds. -/
structure CreateScheduledTaskM where
  ns : String
  unique_key : Option String
  data : String
  execute_at : Int
deriving DecidableEq

/-- Key match used by the upsert: same namespace and same unique key. -/
def same_key (ns : String) (key : String) (t : ScheduledTask) : Bool :=
  t.ns == ns && t.unique_key == some key

/-- Modelled from the spec: `TimerStore.create_task(tenant, namespace,
unique_key?, data, fire_at) → ScheduledTask` — the store implementation is
not under `src/`; per the spec it upserts on `(tenant, namespace,
unique_key)` when `unique_key` is present (the second call's `fire_at` and
`data` win), and otherwise inserts a row with a globally fresh id
(`fresh_id` here). -/
def create_task (store : List ScheduledTask) (fresh_id : Nat) (ns : String)
    (key : Option String) (data : String) (fire_at : Int) :
    List ScheduledTask × ScheduledTask :=
  match key with
  | some k =>
    match store.find? (same_key ns k) with
    | some existing =>
      let updated : ScheduledTask := { existing with data := data, fire_at := fire_at }
      (store.map (fun t => if same_key ns k t then updated else t), updated)
    | none =>
      let task : ScheduledTask := ⟨fresh_id, ns, some k, data, fire_at⟩
      (store ++ [task], task)
  | none =>
    let task : ScheduledTask := ⟨fresh_id, ns, none, data, fire_at⟩
    (store ++ [task], task)

/-- Modelled from the spec: `TimerStore.get_task_count(tenant)` — the
store implementation is not under `src/`. -/
def get_task_count (store : List ScheduledTask) : Nat := store.length

/-- `op_bl_schedule_task` from `runtime/src/extensions/tasks.rs`.  The
plan-dependent limits `tasks_data_size(plan)` and
`tasks_scheduled_count(plan)` live in `runtime/src/limits.rs`, which is
not under `src/`; they are taken as the parameters `limit_data_len` and
`limit_num_tasks`.  On success the returned `Bool` records that the
`NewTaskScheduled` runtime event was sent. -/
def op_bl_schedule_task (limit_data_len limit_num_tasks : Nat)
    (store : List ScheduledTask) (fresh_id : Nat)
    (opts : CreateScheduledTaskM) :
    Except String (List ScheduledTask × ScheduledTask × Bool) :=
  if opts.data.length > limit_data_len then
    Except.error ("data cannot be over the data size limit on your guild's plan")
  else
    let current := get_task_count store
    if current > limit_num_tasks then
      Except.error ("max tasks can be scheduled on this guild's plan")
    else
      let r := create_task store fresh_id opts.ns opts.unique_key opts.data
        opts.execute_at
      Except.ok (r.1, r.2, true)

/-- `ShutdownReason` from the `vmthread` crate (values used in `vm.rs`). -/
inductive ShutdownReasonM
  | unknown
  | outOfMemory
  | threadTermination
deriving DecidableEq

/-- A VM script, from `stores::config::Script`; only the fields the VM
reads are kept. -/
structure Script where
  id : Nat
  name : String
  source : String
deriving DecidableEq

/-- `ScriptLoadState` from the `vm` crate. -/
inductive ScriptLoadState
  | unloaded
  | loaded
  | failed
deriving DecidableEq

/-- `ScriptState`: a script together with its compiled output and load
state.  `compiled` is the compiler's JS output. -/
structure ScriptState where
  script : Script
  compiled : String
  load_state : ScriptLoadState
deriving DecidableEq

/-- The per-VM script registry (`ScriptsStateStore`). -/
structure ScriptsStateStore where
  scripts : List ScriptState
deriving DecidableEq

/-- Modelled from the spec: `ScriptStateStore.get(id)` — the store lives in
the `vm` crate library, which is not under `src/`. -/
def get_script (store : ScriptsStateStore) (id : Nat) : Option ScriptState :=
  store.scripts.find? (fun s => s.script.id == id)

/-- Modelled from the spec: `ScriptStateStore.is_failed_or_loaded(id)`,
"used to suppress redundant load attempts" — the store lives in the `vm`
crate library, which is not under `src/`. -/
def is_failed_or_loaded (store : ScriptsStateStore) (id : Nat) : Option Bool :=
  (get_script store id).map
    (fun s => s.load_state == ScriptLoadState.loaded
      || s.load_state == ScriptLoadState.failed)

/-- Modelled from the spec: `ScriptStateStore.set_state(id, state)` — the
store lives in the `vm` crate library, which is not under `src/`. -/
def set_state (store : ScriptsStateStore) (id : Nat) (st : ScriptLoadState) :
    ScriptsStateStore :=
  ⟨store.scripts.map
    (fun s => if s.script.id == id then { s with load_state := st } else s)⟩

/-- Modelled from the spec: `ScriptStateStore.compile_add(script)` —
"invokes the compiler; stores result with `load_state = Unloaded`; on
duplicate `id`, replace"; a compile error stores nothing.  The store lives
in the `vm` crate library, which is not under `src/`.  The compiler is the
pure function parameter `compile` (spec §1: `compile(source) → {code,
source_map}`; the source map is irrelevant here). -/
def compile_add_script (compile : String → Except String String)
    (store : ScriptsStateStore) (script : Script) :
    Except String (ScriptsStateStore × ScriptState) :=
  match compile script.source with
  | Except.error e => Except.error e
  | Except.ok out =>
    let st : ScriptState := ⟨script, out, ScriptLoadState.unloaded⟩
    let scripts2 :=
      if store.scripts.any (fun s => s.script.id == script.id) then
        store.scripts.map (fun s => if s.script.id == script.id then st else s)
      else
        store.scripts ++ [st]
    Except.ok (⟨scripts2⟩, st)

/-- `VmEvent` from `vm.rs`. -/
inductive VmEventM
  | shutdown (reason : ShutdownReasonM)
  | dispatchedEvent (evt_id : Nat)
  | vmFinished
deriving DecidableEq

/-- `VmCommand` from `vm.rs` (the JSON payload of `DispatchEvent` is
dropped: only its name and event id matter to the state transitions). -/
inductive VmCommandM
  | dispatchEvent (name : String) (evt_id : Nat)
  | loadScript (script : Script)
  | unloadScripts (scripts : List Script)
  | updateScript (script : Script)
  | restartCmd (new_scripts : List Script)
deriving DecidableEq

/-- The observable state of one `Vm`: its script store, the tenant log,
the events sent on its event channel, which isolate incarnation it runs
(bumped whenever `create_isolate` builds a fresh isolate), and the calls
made into the interpreter's `dispatchWrapper`. -/
structure VmState where
  script_store : ScriptsStateStore
  log : List String
  events : List VmEventM
  incarnation : Nat
  js_dispatches : List (String × Nat)
deriving DecidableEq

/-- `Vm::compile_script`: call `compile_add_script`; on error, log the
compile error to the tenant log and return `none`. -/
def compile_script (compile : String → Except String String) (vm : VmState)
    (script : Script) : VmState × Option ScriptState :=
  match compile_add_script compile vm.script_store script with
  | Except.ok (store2, st) => ({ vm with script_store := store2 }, some st)
  | Except.error e =>
    ({ vm with
        log := vm.log ++
          [("Script compilation failed for " ++ script.name ++ ".ts: " ++ e)] },
      none)

/-- `Vm::run_script`: skip if already loaded or failed, skip if the script
is not in the store, otherwise mark it `Loaded` and evaluate the module.
Module evaluation happens inside the JS engine; its outcome is the
parameter `evalRes`.  On an evaluation error the error is logged and the
script is marked `Failed`. -/
def run_script (evalRes : Nat → Except String Unit) (vm : VmState)
    (script_id : Nat) : VmState :=
  match is_failed_or_loaded vm.script_store script_id with
  | some true => vm
  | _ =>
    match get_script vm.script_store script_id with
    | none => vm
    | some _ =>
      let vm1 := { vm with
        script_store := set_state vm.script_store script_id ScriptLoadState.loaded }
      match evalRes script_id with
      | Except.error e =>
        { vm1 with
          log := vm1.log ++ [("Script error occurred: " ++ e)],
          script_store := set_state vm1.script_store script_id ScriptLoadState.failed }
      | Except.ok _ => vm1

/-- `Vm::dispatch_event`: emit `DispatchedEvent(evt_id)` on the event
channel, then call `BotloaderCore.dispatchWrapper` in the interpreter. -/
def dispatch_event (vm : VmState) (name : String) (evt_id : Nat) : VmState :=
  { vm with
    events := vm.events ++ [VmEventM.dispatchedEvent evt_id],
    js_dispatches := vm.js_dispatches ++ [(name, evt_id)] }

/-- `Vm::restart`: log, stop the current VM (a timed drain of the event
loop, with no effect on the modelled state), clear the script store,
compile the new scripts, build a fresh isolate, run each script, log. -/
def restart (compile : String → Except String String)
    (evalRes : Nat → Except String Unit) (vm : VmState)
    (new_scripts : List Script) : VmState :=
  let vm1 := { vm with log := vm.log ++ [("restarting guild vm...")] }
  let vm2 := { vm1 with script_store := ⟨[]⟩ }
  let vm3 := new_scripts.foldl (fun v s => (compile_script compile v s).1) vm2
  let vm4 := { vm3 with incarnation := vm3.incarnation + 1 }
  let vm5 := new_scripts.foldl (fun v s => run_script evalRes v s.id) vm4
  { vm5 with log := vm5.log ++ [("vm restarted")] }

/-- `Vm::handle_cmd` from `vm.rs`. -/
def handle_cmd (compile : String → Except String String)
    (evalRes : Nat → Except String Unit) (vm : VmState) (cmd : VmCommandM) :
    VmState :=
  match cmd with
  | VmCommandM.restartCmd new_scripts => restart compile evalRes vm new_scripts
  | VmCommandM.dispatchEvent name evt_id => dispatch_event vm name evt_id
  | VmCommandM.loadScript script =>
    match compile_script compile vm script with
    | (vm2, some st) => run_script evalRes vm2 st.script.id
    | (vm2, none) => vm2
  | VmCommandM.updateScript script =>
    let cloned := vm.script_store.scripts.map (fun v => v.script)
    let need_reset := cloned.any (fun old => old.id == script.id)
    let updated := cloned.map (fun old => if old.id == script.id then script else old)
    if need_reset then restart compile evalRes vm updated else vm
  | VmCommandM.unloadScripts scripts =>
    let new_scripts := vm.script_store.scripts.filterMap
      (fun sc =>
        if scripts.any (fun isc => isc.id == sc.script.id) then none
        else some sc.script)
    restart compile evalRes vm new_scripts

/-- The command loop of `Vm::run` restricted to its command handling: each
received command is handled in turn. -/
def handle_cmds (compile : String → Except String String)
    (evalRes : Nat → Except String Unit) (vm : VmState)
    (cmds : List VmCommandM) : VmState :=
  cmds.foldl (handle_cmd compile evalRes) vm

/-- The store invariant of spec §4.2: every stored script was compiled
successfully (its stored output is the compiler's output for its source). -/
def store_compiled_inv (compile : String → Except String String)
    (store : ScriptsStateStore) : Prop :=
  ∀ st ∈ store.scripts, compile st.script.source = Except.ok st.compiled

/-- `ShutdownHandleInner` from `vm.rs`: the `RwLock`-guarded pair of the
optional shutdown reason and the optional registered isolate handle (an
isolate handle is modelled as a number). -/
structure ShutdownHandleInner where
  shutdown_reason : Option ShutdownReasonM
  isolate_handle : Option Nat
deriving DecidableEq

/-- `VmShutdownHandle` from `vm.rs`: the `terminated` flag, the inner
state, plus counters for the wakeup sends and the
`IsolateHandle::terminate_execution` calls performed. -/
structure VmShutdownHandle where
  terminated : Bool
  inner : ShutdownHandleInner
  wakeups : Nat
  terminate_execution_calls : Nat
deriving DecidableEq

/-- The handle as built in `create_vm`: not terminated, no reason, no
isolate handle. -/
def initial_shutdown_handle : VmShutdownHandle :=
  { terminated := false
    inner := { shutdown_reason := none, isolate_handle := none }
    wakeups := 0
    terminate_execution_calls := 0 }

/-- `VmShutdownHandle::shutdown_vm` from `vm.rs`: store the reason; if an
isolate handle is registered set `terminated` (and on `force` call
`terminate_execution`), otherwise clear the reason back to `none`;
always send one wakeup. -/
def shutdown_vm (h : VmShutdownHandle) (reason : ShutdownReasonM)
    (force : Bool) : VmShutdownHandle :=
  let inner1 := { h.inner with shutdown_reason := some reason }
  match inner1.isolate_handle with
  | some _ =>
    { h with
      inner := inner1
      terminated := true
      terminate_execution_calls :=
        h.terminate_execution_calls + (if force then 1 else 0)
      wakeups := h.wakeups + 1 }
  | none =>
    { h with
      inner := { inner1 with shutdown_reason := none }
      wakeups := h.wakeups + 1 }

/-- `Vm::emit_isolate_handle`: register the current isolate's handle on
the shutdown handle. -/
def emit_isolate_handle (h : VmShutdownHandle) (iso : Nat) : VmShutdownHandle :=
  { h with inner := { h.inner with isolate_handle := some iso } }

/-- The operations that touch a `VmShutdownHandle`. -/
inductive HandleOp
  | register (iso : Nat)
  | shutdownOp (reason : ShutdownReasonM) (force : Bool)
deriving DecidableEq

/-- One handle operation. -/
def handle_step (h : VmShutdownHandle) : HandleOp → VmShutdownHandle
  | HandleOp.register iso => emit_isolate_handle h iso
  | HandleOp.shutdownOp r f => shutdown_vm h r f

/-- A sequence of handle operations. -/
def handle_run (h : VmShutdownHandle) : List HandleOp → VmShutdownHandle
  | [] => h
  | op :: rest => handle_run (handle_step h op) rest

/-- Whether some `shutdown_vm` call in the sequence happens at a moment
where an isolate handle is registered (`registered` says whether one is
registered at the start). -/
def shutdown_while_registered (registered : Bool) : List HandleOp → Bool
  | [] => false
  | HandleOp.register _ :: rest => shutdown_while_registered true rest
  | HandleOp.shutdownOp _ _ :: rest =>
    registered || shutdown_while_registered registered rest

/-- Whether the sequence contains any `shutdown_vm` call. -/
def has_shutdown_op : List HandleOp → Bool
  | [] => false
  | HandleOp.register _ :: rest => has_shutdown_op rest
  | HandleOp.shutdownOp _ _ :: _ => true

/-- The `Shutdown` event emitted at the end of `Vm::run`: the stored
reason, or `Unknown` when none is stored. -/
def emitted_shutdown_event (h : VmShutdownHandle) : VmEventM :=
  VmEventM.shutdown (h.inner.shutdown_reason.getD ShutdownReasonM.unknown)

/-- The near-heap-limit callback installed by `Vm::create_isolate`: call
`shutdown_vm(OutOfMemory, force=true)` (returned as the first component),
and return the new heap limit: the current limit if it already differs
from the initial one, else `current + initial`. -/
def near_heap_limit_callback (current initial : Nat) :
    (ShutdownReasonM × Bool) × Nat :=
  ((ShutdownReasonM.outOfMemory, true),
    if current != initial then current else current + initial)

/-- Poll readiness, as in `std::task::Poll`. -/
inductive PollResult (α : Type)
  | pending
  | ready (a : α)
deriving DecidableEq

/-- `TickResult` from `vm.rs`. -/
inductive TickResultM
  | vmError (e : String)
  | completed
  | command (cmd : Option VmCommandM)
  | cont
deriving DecidableEq

/-- The inputs one `TickFuture::poll` call observes: whether the wakeup
channel is ready, whether the command channel is ready (and the received
`Option<VmCommand>`), the result of polling the interpreter's event loop,
and the `completed` flag the future was built with (whether the previous
tick already returned `Completed`). -/
structure TickInputs where
  wakeup_ready : Bool
  command_ready : Option (Option VmCommandM)
  event_loop_poll : PollResult (Except String Unit)
  completed : Bool

/-- `TickFuture::poll` from `vm.rs`: check the wakeup channel, then the
command channel, then enter the `IsolateCell` and poll the event loop,
mapping a ready-ok event loop to `Completed` unless the previous tick
already completed. -/
def tick_future_poll (inp : TickInputs) : PollResult TickResultM :=
  if inp.wakeup_ready then PollResult.ready TickResultM.cont
  else
    match inp.command_ready with
    | some opt => PollResult.ready (TickResultM.command opt)
    | none =>
      match inp.event_loop_poll with
      | PollResult.pending => PollResult.pending
      | PollResult.ready (Except.ok _) =>
        if inp.completed then PollResult.pending
        else PollResult.ready TickResultM.completed
      | PollResult.ready (Except.error e) =>
        PollResult.ready (TickResultM.vmError e)

/-- The update of the `completed` flag in the loop of `Vm::run`: it is
reset to `false` each iteration and set only when the tick returned
`Completed` (which is also when `VmFinished` is emitted). -/
def next_completed_flag (r : TickResultM) : Bool :=
  match r with
  | TickResultM.completed => true
  | _ => false

/-! Concrete instances used by counterexamples and witnesses. -/

/-- A manager whose cached next fire time equals the current instant used
below. -/
def c1_manager : Manager :=
  { next_task_time := some (some 0), pending := [], task_names := [] }

/-- A manager with a cached future fire time. -/
def c1_wait_manager : Manager :=
  { next_task_time := some (some 10), pending := [], task_names := [] }

/-- A manager with one pending task id and one known namespace. -/
def c2_manager : Manager :=
  { next_task_time := some (some 0), pending := [5], task_names := ["a"] }

/-- A store holding a pending task and a due task in a known namespace. -/
def c2_store : List ScheduledTask :=
  [⟨5, "a", none, "d", 0⟩, ⟨7, "a", none, "d", 0⟩]

/-- A store already at a plan limit of one stored task. -/
def c3_store : List ScheduledTask := [⟨1, "a", none, "x", 0⟩]

/-- A keyless schedule request. -/
def c3_opts : CreateScheduledTaskM :=
  { ns := "a", unique_key := none, data := "y", execute_at := 100 }

/-- A compiler that rejects the source `"bad"` and succeeds otherwise. -/
def compile0 : String → Except String String :=
  fun src =>
    if src == "bad" then Except.error ("compile error")
    else Except.ok (src ++ (";"))

/-- Module evaluation that always succeeds. -/
def evalRes0 : Nat → Except String Unit := fun _ => Except.ok ()

/-- A fresh VM state. -/
def vm0 : VmState :=
  { script_store := ⟨[]⟩, log := [], events := [], incarnation := 0,
    js_dispatches := [] }

/-- A script whose source fails to compile under `compile0`. -/
def s_bad : Script := ⟨1, "badscript", "bad"⟩

/-- A script that compiles under `compile0`. -/
def s_good : Script := ⟨2, "goodscript", "ok"⟩

/-! Helper lemmas. -/

theorem list_union_foldl_mem (new : List String) (acc : List String) (x : String) :
    x ∈ new.foldl (fun a n => if a.contains n then a else a ++ [n]) acc ↔
      x ∈ acc ∨ x ∈ new := by
  induction new generalizing acc with
  | nil => simp
  | cons n rest ih =>
    simp only [List.foldl_cons]
    by_cases h : acc.contains n = true
    · rw [if_pos h, ih]
      have hmem : n ∈ acc := by simpa using h
      simp only [List.mem_cons]
      constructor
      · rintro (hx | hx)
        · exact Or.inl hx
        · exact Or.inr (Or.inr hx)
      · rintro (hx | hx | hx)
        · exact Or.inl hx
        · exact Or.inl (hx ▸ hmem)
        · exact Or.inr hx
    · rw [if_neg h, ih]
      simp only [List.mem_append, List.mem_singleton, List.mem_cons]
      tauto

theorem list_union_foldl_nodup (new : List String) (acc : List String)
    (h : acc.Nodup) :
    (new.foldl (fun a n => if a.contains n then a else a ++ [n]) acc).Nodup := by
  induction new generalizing acc with
  | nil => simpa
  | cons n rest ih =>
    simp only [List.foldl_cons]
    by_cases hc : acc.contains n = true
    · rw [if_pos hc]
      exact ih _ h
    · rw [if_neg hc]
      apply ih
      have hn : n ∉ acc := by simpa using hc
      simp [List.nodup_append, h, hn]

theorem next_action_run_inv (m : Manager) (now : Int) (store : List ScheduledTask)
    (m2 : Manager) (ts : List ScheduledTask)
    (h : next_action m now store = (m2, NextAction.run ts)) :
    ts = get_triggered_tasks store now m.pending m.task_names := by
  unfold next_action at h
  rcases hm : m.next_task_time with _ | v
  · rw [hm] at h
    simp only at h
    rcases hg : get_next_task_time store m.pending m.task_names with _ | t
    · rw [hg] at h
      simp at h
    · rw [hg] at h
      simp only at h
      by_cases hlt : now > t
      · rw [if_pos hlt] at h
        simp only [Prod.mk.injEq, NextAction.run.injEq] at h
        exact h.2.symm
      · rw [if_neg hlt] at h
        simp at h
  · rw [hm] at h
    simp only at h
    rcases v with _ | t
    · simp at h
    · simp only at h
      by_cases hlt : now > t
      · rw [if_pos hlt] at h
        simp only [Prod.mk.injEq, NextAction.run.injEq] at h
        exact h.2.symm
      · rw [if_neg hlt] at h
        simp at h

theorem mem_get_triggered_tasks_eligible (store : List ScheduledTask)
    (now : Int) (exclude_ids : List Nat) (include_namespaces : List String)
    (t : ScheduledTask)
    (h : t ∈ get_triggered_tasks store now exclude_ids include_namespaces) :
    task_eligible exclude_ids include_namespaces t = true ∧ t.fire_at ≤ now := by
  unfold get_triggered_tasks at h
  have h1 := List.of_mem_filter h
  have h2 := List.mem_of_mem_filter h
  have h3 := List.of_mem_filter h2
  exact ⟨h3, by simpa using h1⟩

/-- Claim C1 (counterexample): with the cached next fire time equal to the
current time (`t = now = 0`), `next_action` returns `Wait(0)` and not a
`Run` result — the code triggers tasks only for `now > t`, strictly. -/
theorem c1_now_equal_counterexample :
    (next_action c1_manager 0 []).2 = NextAction.wait 0 ∧
    NextAction.is_run (next_action c1_manager 0 []).2 = false := by
  constructor <;> rfl

/-- Claim C1 (amended): for a state with cached next fire time `t`: when `now ≤ t`
(`t` not strictly in the past, including `t = now`) `next_action` returns
`Wait(t)` and leaves the state unchanged; when `t < now` it queries all
tasks with `fire_at ≤ now` whose id is not pending and whose namespace is
known, appends their ids to `pending`, clears the cache, and returns
`Run(tasks)`. -/
theorem next_action_cached_spec (m : Manager) (t now : Int)
    (store : List ScheduledTask) (hc : m.next_task_time = some (some t)) :
    (now ≤ t → next_action m now store = (m, NextAction.wait t)) ∧
    (t < now →
      next_action m now store =
        ({ m with
            pending := m.pending ++
              (get_triggered_tasks store now m.pending m.task_names).map
                (fun x => x.id),
            next_task_time := none },
          NextAction.run (get_triggered_tasks store now m.pending m.task_names))) := by
  obtain ⟨ntt, pend, names⟩ := m
  simp only at hc
  subst hc
  constructor
  · intro h
    unfold next_action
    simp only
    rw [if_neg (not_lt.mpr h)]
  · intro h
    unfold next_action
    simp only
    rw [if_pos h]

/-- Witness for `next_action_cached_spec` at a concrete state with a
cached future fire time. -/
theorem next_action_cached_spec_witness :
    next_action c1_wait_manager 10 [] = (c1_wait_manager, NextAction.wait 10) :=
  (next_action_cached_spec c1_wait_manager 10 10 [] rfl).1 (by decide)

/-- Claim C2: if `id` is in `pending` when `next_action` is called, a `Run`
result never contains a task with that id: the triggered-tasks query
excludes every pending id.  This holds for every manager state, hence at
every point of every operation sequence while `id` remains pending. -/
theorem no_double_fire_while_pending (m : Manager) (now : Int)
    (store : List ScheduledTask) (id : Nat) (m2 : Manager)
    (ts : List ScheduledTask) (hid : id ∈ m.pending)
    (h : next_action m now store = (m2, NextAction.run ts)) :
    id ∉ ts.map (fun x => x.id) ∧ ∀ t ∈ ts, t.id ≠ id := by
  have hts := next_action_run_inv m now store m2 ts h
  have key : ∀ t ∈ ts, t.id ≠ id := by
    intro t ht heq
    subst hts
    have helig :=
      (mem_get_triggered_tasks_eligible store now m.pending m.task_names t ht).1
    unfold task_eligible at helig
    simp only [Bool.and_eq_true, Bool.not_eq_true'] at helig
    have hnot : t.id ∉ m.pending := by simpa using helig.1
    exact hnot (heq ▸ hid)
  refine ⟨?_, key⟩
  intro hmem
  rw [List.mem_map] at hmem
  obtain ⟨t, ht, hti⟩ := hmem
  exact key t ht hti

/-- Witness for `no_double_fire_while_pending`: id 5 is pending, the store
holds a due task with id 5 and a due task with id 7, and the `Run` result
contains only id 7. -/
theorem no_double_fire_while_pending_witness :
    (5 : Nat) ∉
      ([(⟨7, "a", none, "d", 0⟩ : ScheduledTask)]).map (fun x => x.id) :=
  (no_double_fire_while_pending c2_manager 1 c2_store 5
    ⟨none, [5, 7], ["a"]⟩ [⟨7, "a", none, "d", 0⟩]
    (by decide) (by decide)).1

/-- Claim C9: `script_started` makes `known_namespaces` the union of the old set
with `meta.task_names` (introducing no duplicate entries), resets the
cached next fire time to the not-yet-queried state (so the next
`next_action` call re-queries the store), and leaves `pending` alone. -/
theorem script_started_spec (m : Manager) (meta : ScriptMeta) :
    (∀ x : String, x ∈ (script_started m meta).task_names ↔
      (x ∈ m.task_names ∨ x ∈ meta.task_names)) ∧
    (m.task_names.Nodup → (script_started m meta).task_names.Nodup) ∧
    (script_started m meta).next_task_time = none ∧
    (script_started m meta).pending = m.pending := by
  refine ⟨?_, ?_, rfl, rfl⟩
  · intro x
    exact list_union_foldl_mem meta.task_names m.task_names x
  · intro h
    exact list_union_foldl_nodup meta.task_names m.task_names h

/-- Witness for `script_started_spec` on a fresh manager and a meta that
declares the same namespace twice. -/
theorem script_started_spec_witness :
    ("x" ∈ (script_started Manager.new ⟨1, ["x", "x"]⟩).task_names ↔
      ("x" ∈ Manager.new.task_names ∨ "x" ∈ (["x", "x"] : List String))) ∧
    (script_started Manager.new ⟨1, ["x", "x"]⟩).task_names.Nodup :=
  ⟨(script_started_spec Manager.new ⟨1, ["x", "x"]⟩).1 "x",
    (script_started_spec Manager.new ⟨1, ["x", "x"]⟩).2.1 (by decide)⟩

theorem not_mem_vec_swap_remove (l : List Nat) (i : Nat) (a : Nat)
    (hn : l.Nodup) (hi : i < l.length) (hget : l[i] = a) :
    a ∉ vec_swap_remove l i := by
  have hne : l ≠ [] := List.ne_nil_of_length_pos (by omega)
  have hlast : l.getLast? = some (l.getLast hne) := List.getLast?_eq_getLast l hne
  have heq : vec_swap_remove l i = (l.set i (l.getLast hne)).dropLast := by
    unfold vec_swap_remove
    rw [hlast]
  rw [heq]
  intro hmem
  rw [List.mem_iff_getElem] at hmem
  obtain ⟨j, hj, hgj⟩ := hmem
  have hjlen : j < l.length - 1 := by simpa using hj
  have hjl : j < l.length := by omega
  have hlt1 : l.length - 1 < l.length := by omega
  rw [List.getElem_dropLast, List.getElem_set] at hgj
  have hlastidx : l[l.length - 1] = l.getLast hne :=
    (List.getLast_eq_getElem l hne).symm
  by_cases hij : i = j
  · rw [if_pos hij] at hgj
    have h2 : l[l.length - 1] = l[i] := by
      rw [hlastidx, hgj, hget]
    have h3 := (hn.getElem_inj_iff).mp h2
    omega
  · rw [if_neg hij] at hgj
    have h2 : l[j] = l[i] := by
      rw [hgj, hget]
    have h3 := (hn.getElem_inj_iff).mp h2
    omega

theorem not_mem_ack_remove_pending (pending : List Nat) (id : Nat)
    (h : pending.Nodup) : id ∉ ack_remove_pending pending id := by
  unfold ack_remove_pending find_pending_index
  cases hf : pending.findIdx? (fun v => v == id) with
  | none =>
    intro hmem
    rw [List.findIdx?_eq_none_iff] at hf
    have := hf id hmem
    simp at this
  | some i =>
    rw [List.findIdx?_eq_some_iff_getElem] at hf
    obtain ⟨hi, hpi, _⟩ := hf
    exact not_mem_vec_swap_remove pending i id h hi (by simpa using hpi)

theorem del_task_fst_no_id (store : List ScheduledTask) (id : Nat) :
    ∀ t ∈ (del_task_by_id store id).1, t.id ≠ id := by
  intro t ht
  unfold del_task_by_id at ht
  simp only at ht
  have := List.of_mem_filter ht
  simpa using this

theorem ack_del_loop_spec (store : List ScheduledTask) (id : Nat) :
    ∀ n, (ack_del_loop store id n).1 = (del_task_by_id store id).1 ∧
      (ack_del_loop store id n).2 = n := by
  intro n
  induction n with
  | zero => exact ⟨rfl, rfl⟩
  | succ k ih =>
    refine ⟨ih.1, ?_⟩
    simp only [ack_del_loop]
    rw [ih.2]

/-- Claim C8: `ack(id)` removes `id` from the pending set (given the pending
set's no-duplicates invariant), and on return the task has been deleted
from the store, after exactly one 5-second backoff sleep per store error;
the operation has no failure outcome (its result type carries no error),
and it leaves the cache and the known namespaces untouched. -/
theorem ack_triggered_task_spec (m : Manager) (id : Nat)
    (store : List ScheduledTask) (failures : Nat) (h : m.pending.Nodup) :
    id ∉ (ack_triggered_task m id store failures).manager.pending ∧
    (∀ t ∈ (ack_triggered_task m id store failures).store, t.id ≠ id) ∧
    (ack_triggered_task m id store failures).sleeps_5s = failures ∧
    (ack_triggered_task m id store failures).manager.next_task_time =
      m.next_task_time ∧
    (ack_triggered_task m id store failures).manager.task_names =
      m.task_names := by
  have hloop := ack_del_loop_spec store id failures
  refine ⟨?_, ?_, ?_, rfl, rfl⟩
  · exact not_mem_ack_remove_pending m.pending id h
  · intro t ht
    unfold ack_triggered_task at ht
    simp only at ht
    rw [hloop.1] at ht
    exact del_task_fst_no_id store id t ht
  · show (ack_del_loop store id failures).2 = failures
    exact hloop.2

/-- Witness for `ack_triggered_task_spec`: acking pending id 3 with two
store errors before the delete succeeds. -/
theorem ack_triggered_task_spec_witness :
    (3 : Nat) ∉ (ack_triggered_task ⟨none, [3], []⟩ 3 [] 2).manager.pending ∧
    (ack_triggered_task ⟨none, [3], []⟩ 3 [] 2).sleeps_5s = 2 :=
  ⟨(ack_triggered_task_spec ⟨none, [3], []⟩ 3 [] 2 (by decide)).1,
    (ack_triggered_task_spec ⟨none, [3], []⟩ 3 [] 2 (by decide)).2.2.1⟩

theorem create_task_length_le (store : List ScheduledTask) (fid : Nat)
    (ns : String) (key : Option String) (data : String) (fire_at : Int) :
    (create_task store fid ns key data fire_at).1.length ≤ store.length + 1 := by
  unfold create_task
  cases key with
  | none => simp
  | some k =>
    cases hfind : store.find? (same_key ns k) with
    | none => simp [hfind]
    | some existing => simp [hfind]

/-- Claim C3 (counterexample): with a plan limit of one stored task and the
store already holding one task, `op_bl_schedule_task` succeeds (the check
is `count > limit` on the count before insertion) and leaves two stored
tasks — so after a successful call the stored count exceeds the plan
limit. -/
theorem c3_count_limit_counterexample :
    op_bl_schedule_task 100 1 c3_store 2 c3_opts =
      Except.ok (c3_store ++ [⟨2, "a", none, "y", 100⟩],
        (⟨2, "a", none, "y", 100⟩ : ScheduledTask), true) ∧
    get_task_count (c3_store ++ [⟨2, "a", none, "y", 100⟩]) = 2 ∧
    ¬ (get_task_count (c3_store ++ [⟨2, "a", none, "y", 100⟩]) ≤ 1) := by
  refine ⟨rfl, rfl, by decide⟩

/-- Claim C3 (amended): `op_bl_schedule_task` errors when the serialized data
length exceeds `tasks_data_size(plan)`, and errors when the stored task
count, measured before insertion, exceeds `tasks_scheduled_count(plan)`;
otherwise it creates (or upserts) the task and emits `NewTaskScheduled`.
Consequently after a successful call the stored count is at most
`tasks_scheduled_count(plan) + 1`: the plan bound can be exceeded by
exactly one task. -/
theorem op_bl_schedule_task_limits (ld lc : Nat) (store : List ScheduledTask)
    (fid : Nat) (opts : CreateScheduledTaskM) :
    (opts.data.length > ld →
      op_bl_schedule_task ld lc store fid opts =
        Except.error
          ("data cannot be over the data size limit on your guild's plan")) ∧
    (opts.data.length ≤ ld → store.length > lc →
      op_bl_schedule_task ld lc store fid opts =
        Except.error ("max tasks can be scheduled on this guild's plan")) ∧
    (opts.data.length ≤ ld → store.length ≤ lc →
      ∃ store2 task,
        op_bl_schedule_task ld lc store fid opts =
          Except.ok (store2, task, true) ∧
        store2.length ≤ lc + 1) := by
  refine ⟨?_, ?_, ?_⟩
  · intro h
    unfold op_bl_schedule_task
    rw [if_pos h]
  · intro h1 h2
    unfold op_bl_schedule_task
    rw [if_neg (not_lt.mpr h1)]
    dsimp only
    rw [if_pos (show get_task_count store > lc from h2)]
  · intro h1 h2
    refine ⟨(create_task store fid opts.ns opts.unique_key opts.data
        opts.execute_at).1,
      (create_task store fid opts.ns opts.unique_key opts.data
        opts.execute_at).2, ?_, ?_⟩
    · unfold op_bl_schedule_task
      rw [if_neg (not_lt.mpr h1)]
      dsimp only
      rw [if_neg (show ¬ get_task_count store > lc from not_lt.mpr h2)]
    · exact le_trans
        (create_task_length_le store fid opts.ns opts.unique_key opts.data
          opts.execute_at)
        (by omega)

/-- Witness for `op_bl_schedule_task_limits`: with a plan count limit of 0
and one task already stored, the call errors. -/
theorem op_bl_schedule_task_limits_witness :
    op_bl_schedule_task 100 0 c3_store 2 c3_opts =
      Except.error ("max tasks can be scheduled on this guild's plan") :=
  (op_bl_schedule_task_limits 100 0 c3_store 2 c3_opts).2.1
    (by decide) (by decide)

/-- Claim C6: the near-heap-limit callback always requests
`shutdown_vm(OutOfMemory, force=true)`, and the returned limit expands the
heap exactly once: when the current limit still equals the initial limit
it returns `current + initial` (doubling), otherwise it returns the
current limit unchanged — so a second invocation (with `0 < initial`)
returns the already-expanded limit. -/
theorem near_heap_limit_callback_spec (current initial : Nat) :
    (near_heap_limit_callback current initial).1 =
      (ShutdownReasonM.outOfMemory, true) ∧
    (current = initial →
      (near_heap_limit_callback current initial).2 = current + initial) ∧
    (current ≠ initial →
      (near_heap_limit_callback current initial).2 = current) ∧
    (0 < initial →
      (near_heap_limit_callback initial initial).2 = initial + initial ∧
      (near_heap_limit_callback (near_heap_limit_callback initial initial).2
          initial).2 =
        (near_heap_limit_callback initial initial).2) := by
  refine ⟨rfl, ?_, ?_, ?_⟩
  · intro h
    subst h
    simp [near_heap_limit_callback]
  · intro h
    simp [near_heap_limit_callback, h]
  · intro h
    have hne : initial + initial ≠ initial := by omega
    constructor
    · simp [near_heap_limit_callback]
    · simp [near_heap_limit_callback, hne]

/-- Witness for `near_heap_limit_callback_spec` at the real initial heap
limit of 512 KiB: the first invocation doubles the limit, the second
leaves it unchanged. -/
theorem near_heap_limit_callback_spec_witness :
    (near_heap_limit_callback 524288 524288).2 = 524288 + 524288 ∧
    (near_heap_limit_callback 1048576 524288).2 = 1048576 :=
  ⟨(near_heap_limit_callback_spec 524288 524288).2.1 rfl,
    (near_heap_limit_callback_spec 1048576 524288).2.2.1 (by decide)⟩

/-- Claim C7: each `TickFuture::poll` checks, in order, the wakeup channel
(returning `Continue`), then the command channel (returning `Command`),
then polls the interpreter event loop, mapping pending to `Pending`,
ready-ok to `Completed` unless the previous tick already completed (in
which case `Pending`, so `VmFinished` is emitted once per completion and
no hot loop occurs), and ready-err to `VmError`; the run loop's
`completed` flag is set exactly by a `Completed` tick. -/
theorem tick_future_poll_spec (inp : TickInputs) :
    (inp.wakeup_ready = true →
      tick_future_poll inp = PollResult.ready TickResultM.cont) ∧
    (inp.wakeup_ready = false → ∀ c, inp.command_ready = some c →
      tick_future_poll inp = PollResult.ready (TickResultM.command c)) ∧
    (inp.wakeup_ready = false → inp.command_ready = none →
      inp.event_loop_poll = PollResult.pending →
      tick_future_poll inp = PollResult.pending) ∧
    (inp.wakeup_ready = false → inp.command_ready = none →
      inp.event_loop_poll = PollResult.ready (Except.ok ()) →
      inp.completed = false →
      tick_future_poll inp = PollResult.ready TickResultM.completed) ∧
    (inp.wakeup_ready = false → inp.command_ready = none →
      inp.event_loop_poll = PollResult.ready (Except.ok ()) →
      inp.completed = true →
      tick_future_poll inp = PollResult.pending) ∧
    (∀ e, inp.wakeup_ready = false → inp.command_ready = none →
      inp.event_loop_poll = PollResult.ready (Except.error e) →
      tick_future_poll inp = PollResult.ready (TickResultM.vmError e)) ∧
    next_completed_flag TickResultM.completed = true ∧
    (∀ r, r ≠ TickResultM.completed → next_completed_flag r = false) := by
  obtain ⟨w, cr, el, comp⟩ := inp
  refine ⟨?_, ?_, ?_, ?_, ?_, ?_, rfl, ?_⟩
  · intro h
    subst h
    simp [tick_future_poll]
  · intro h c hc
    subst h
    subst hc
    simp [tick_future_poll]
  · intro h hc hel
    subst h
    subst hc
    subst hel
    simp [tick_future_poll]
  · intro h hc hel hcm
    subst h
    subst hc
    subst hel
    subst hcm
    simp [tick_future_poll]
  · intro h hc hel hcm
    subst h
    subst hc
    subst hel
    subst hcm
    simp [tick_future_poll]
  · intro e h hc hel
    subst h
    subst hc
    subst hel
    simp [tick_future_poll]
  · intro r hr
    cases r with
    | vmError e => rfl
    | completed => exact absurd rfl hr
    | command c => rfl
    | cont => rfl

/-- Witness for `tick_future_poll_spec`: a ready wakeup channel wins, and
a ready-ok event loop after an already-completed tick stays pending. -/
theorem tick_future_poll_spec_witness :
    tick_future_poll ⟨true, none, PollResult.pending, false⟩ =
      PollResult.ready TickResultM.cont ∧
    tick_future_poll ⟨false, none, PollResult.ready (Except.ok ()), true⟩ =
      PollResult.pending :=
  ⟨(tick_future_poll_spec ⟨true, none, PollResult.pending, false⟩).1 rfl,
    (tick_future_poll_spec
      ⟨false, none, PollResult.ready (Except.ok ()), true⟩).2.2.2.2.1
      rfl rfl rfl rfl⟩

theorem swr_true_eq_has_shutdown (ops : List HandleOp) :
    shutdown_while_registered true ops = has_shutdown_op ops := by
  induction ops with
  | nil => rfl
  | cons op rest ih =>
    cases op with
    | register iso =>
      simpa [shutdown_while_registered, has_shutdown_op] using ih
    | shutdownOp r f =>
      simp [shutdown_while_registered, has_shutdown_op]

theorem shutdown_vm_fields_registered (h : VmShutdownHandle)
    (r : ShutdownReasonM) (f : Bool) (iso : Nat)
    (hh : h.inner.isolate_handle = some iso) :
    (shutdown_vm h r f).inner.shutdown_reason = some r ∧
    (shutdown_vm h r f).inner.isolate_handle = some iso ∧
    (shutdown_vm h r f).terminated = true := by
  refine ⟨?_, ?_, ?_⟩ <;> simp [shutdown_vm, hh]

theorem shutdown_vm_fields_unregistered (h : VmShutdownHandle)
    (r : ShutdownReasonM) (f : Bool)
    (hh : h.inner.isolate_handle = none) :
    (shutdown_vm h r f).inner.shutdown_reason = none ∧
    (shutdown_vm h r f).inner.isolate_handle = none := by
  refine ⟨?_, ?_⟩ <;> simp [shutdown_vm, hh]

theorem handle_run_reason_isSome (ops : List HandleOp) (h : VmShutdownHandle) :
    (handle_run h ops).inner.shutdown_reason.isSome =
      (shutdown_while_registered h.inner.isolate_handle.isSome ops ||
        (h.inner.shutdown_reason.isSome && !has_shutdown_op ops)) := by
  induction ops generalizing h with
  | nil => simp [handle_run, shutdown_while_registered, has_shutdown_op]
  | cons op rest ih =>
    cases op with
    | register iso =>
      have hrec := ih (emit_isolate_handle h iso)
      simp only [handle_run, handle_step] at hrec ⊢
      rw [hrec]
      simp [emit_isolate_handle, shutdown_while_registered, has_shutdown_op]
    | shutdownOp r f =>
      have hrec := ih (shutdown_vm h r f)
      simp only [handle_run, handle_step] at hrec ⊢
      rw [hrec]
      cases hh : h.inner.isolate_handle with
      | some iso =>
        obtain ⟨h1, h2, _⟩ := shutdown_vm_fields_registered h r f iso hh
        rw [h1, h2]
        simp [shutdown_while_registered, has_shutdown_op,
          swr_true_eq_has_shutdown]
      | none =>
        obtain ⟨h1, h2⟩ := shutdown_vm_fields_unregistered h r f hh
        rw [h1, h2]
        simp [shutdown_while_registered, has_shutdown_op]

/-- Claim C5: starting from the fresh shutdown handle, after any sequence of
isolate-handle registrations and `shutdown_vm` calls, a shutdown reason is
stored exactly when some `shutdown_vm` call happened while an isolate
handle was registered; a `shutdown_vm` call with no registered handle
clears the stored reason; a call with a registered handle stores the
reason and sets `terminated`; every call sends one wakeup; and a loop exit
with no stored reason emits `Shutdown(Unknown)`. -/
theorem shutdown_reason_spec (ops : List HandleOp) :
    ((handle_run initial_shutdown_handle ops).inner.shutdown_reason.isSome =
      shutdown_while_registered false ops) ∧
    (∀ (h : VmShutdownHandle) (r : ShutdownReasonM) (f : Bool),
      h.inner.isolate_handle = none →
      (shutdown_vm h r f).inner.shutdown_reason = none) ∧
    (∀ (h : VmShutdownHandle) (r : ShutdownReasonM) (f : Bool) (iso : Nat),
      h.inner.isolate_handle = some iso →
      (shutdown_vm h r f).inner.shutdown_reason = some r ∧
      (shutdown_vm h r f).terminated = true) ∧
    (∀ (h : VmShutdownHandle) (r : ShutdownReasonM) (f : Bool),
      (shutdown_vm h r f).wakeups = h.wakeups + 1) ∧
    (∀ h : VmShutdownHandle, h.inner.shutdown_reason = none →
      emitted_shutdown_event h = VmEventM.shutdown ShutdownReasonM.unknown) := by
  refine ⟨?_, ?_, ?_, ?_, ?_⟩
  · have hrec := handle_run_reason_isSome ops initial_shutdown_handle
    simpa [initial_shutdown_handle] using hrec
  · intro h r f hh
    exact (shutdown_vm_fields_unregistered h r f hh).1
  · intro h r f iso hh
    obtain ⟨h1, _, h3⟩ := shutdown_vm_fields_registered h r f iso hh
    exact ⟨h1, h3⟩
  · intro h r f
    unfold shutdown_vm
    cases hh : h.inner.isolate_handle <;> simp [hh]
  · intro h hh
    simp [emitted_shutdown_event, hh]

/-- Witness for `shutdown_reason_spec`: registering an isolate handle and
then calling `shutdown_vm(OutOfMemory, force)` stores a reason, while
calling `shutdown_vm` on the fresh handle stores none. -/
theorem shutdown_reason_spec_witness :
    ((handle_run initial_shutdown_handle
      [HandleOp.register 0,
        HandleOp.shutdownOp ShutdownReasonM.outOfMemory true]).inner.shutdown_reason.isSome = true) ∧
    (shutdown_vm initial_shutdown_handle ShutdownReasonM.outOfMemory
      true).inner.shutdown_reason = none := by
  constructor
  · rw [(shutdown_reason_spec
      [HandleOp.register 0,
        HandleOp.shutdownOp ShutdownReasonM.outOfMemory true]).1]
    rfl
  · exact (shutdown_reason_spec []).2.1 initial_shutdown_handle
      ShutdownReasonM.outOfMemory true rfl

theorem store_inv_nil (compile : String → Except String String) :
    store_compiled_inv compile ⟨[]⟩ := by
  intro st hst
  simp at hst

theorem compile_add_script_inv (compile : String → Except String String)
    (store : ScriptsStateStore) (script : Script) (store2 : ScriptsStateStore)
    (st : ScriptState)
    (h : compile_add_script compile store script = Except.ok (store2, st))
    (hinv : store_compiled_inv compile store) :
    store_compiled_inv compile store2 := by
  unfold compile_add_script at h
  cases hc : compile script.source with
  | error e =>
    rw [hc] at h
    simp at h
  | ok out =>
    rw [hc] at h
    simp only [Except.ok.injEq, Prod.mk.injEq] at h
    obtain ⟨h2, _⟩ := h
    subst h2
    intro st2 hst2
    simp only at hst2
    by_cases hany :
        (store.scripts.any (fun s2 => s2.script.id == script.id)) = true
    · rw [if_pos hany] at hst2
      rw [List.mem_map] at hst2
      obtain ⟨orig, horig, heq⟩ := hst2
      by_cases hid : (orig.script.id == script.id) = true
      · rw [if_pos hid] at heq
        subst heq
        exact hc
      · rw [if_neg hid] at heq
        subst heq
        exact hinv orig horig
    · rw [if_neg hany] at hst2
      rw [List.mem_append] at hst2
      rcases hst2 with h4 | h4
      · exact hinv st2 h4
      · simp only [List.mem_singleton] at h4
        subst h4
        exact hc

theorem set_state_inv (compile : String → Except String String)
    (store : ScriptsStateStore) (id : Nat) (ls : ScriptLoadState)
    (hinv : store_compiled_inv compile store) :
    store_compiled_inv compile (set_state store id ls) := by
  intro st hst
  unfold set_state at hst
  simp only at hst
  rw [List.mem_map] at hst
  obtain ⟨orig, horig, heq⟩ := hst
  by_cases hid : (orig.script.id == id) = true
  · rw [if_pos hid] at heq
    subst heq
    exact hinv orig horig
  · rw [if_neg hid] at heq
    subst heq
    exact hinv orig horig

theorem compile_script_fst_inv (compile : String → Except String String)
    (vm : VmState) (s : Script)
    (hinv : store_compiled_inv compile vm.script_store) :
    store_compiled_inv compile
      ((compile_script compile vm s).1).script_store := by
  cases hc : compile_add_script compile vm.script_store s with
  | error e =>
    have heq : (compile_script compile vm s).1.script_store = vm.script_store := by
      unfold compile_script
      rw [hc]
    rw [heq]
    exact hinv
  | ok pair =>
    obtain ⟨store2, st⟩ := pair
    have heq : (compile_script compile vm s).1.script_store = store2 := by
      unfold compile_script
      rw [hc]
    rw [heq]
    exact compile_add_script_inv compile vm.script_store s store2 st hc hinv

theorem run_script_inv (compile : String → Except String String)
    (evalRes : Nat → Except String Unit) (vm : VmState) (id : Nat)
    (hinv : store_compiled_inv compile vm.script_store) :
    store_compiled_inv compile ((run_script evalRes vm id).script_store) := by
  unfold run_script
  split
  · exact hinv
  · split
    · exact hinv
    · dsimp only
      split
      · exact set_state_inv compile _ id ScriptLoadState.failed
          (set_state_inv compile vm.script_store id ScriptLoadState.loaded hinv)
      · exact set_state_inv compile vm.script_store id ScriptLoadState.loaded hinv

theorem foldl_compile_inv (compile : String → Except String String)
    (scripts : List Script) (vm : VmState)
    (hinv : store_compiled_inv compile vm.script_store) :
    store_compiled_inv compile
      ((scripts.foldl (fun v s => (compile_script compile v s).1) vm)).script_store := by
  induction scripts generalizing vm with
  | nil => simpa using hinv
  | cons s rest ih =>
    simp only [List.foldl_cons]
    exact ih _ (compile_script_fst_inv compile vm s hinv)

theorem foldl_run_inv (compile : String → Except String String)
    (evalRes : Nat → Except String Unit) (scripts : List Script) (vm : VmState)
    (hinv : store_compiled_inv compile vm.script_store) :
    store_compiled_inv compile
      ((scripts.foldl (fun v s => run_script evalRes v s.id) vm)).script_store := by
  induction scripts generalizing vm with
  | nil => simpa using hinv
  | cons s rest ih =>
    simp only [List.foldl_cons]
    exact ih _ (run_script_inv compile evalRes vm s.id hinv)

theorem restart_inv (compile : String → Except String String)
    (evalRes : Nat → Except String Unit) (vm : VmState)
    (new_scripts : List Script) :
    store_compiled_inv compile
      ((restart compile evalRes vm new_scripts).script_store) := by
  unfold restart
  dsimp only
  apply foldl_run_inv
  apply foldl_compile_inv
  exact store_inv_nil compile

theorem handle_cmd_inv (compile : String → Except String String)
    (evalRes : Nat → Except String Unit) (vm : VmState) (cmd : VmCommandM)
    (hinv : store_compiled_inv compile vm.script_store) :
    store_compiled_inv compile
      ((handle_cmd compile evalRes vm cmd).script_store) := by
  cases cmd with
  | restartCmd new_scripts => exact restart_inv compile evalRes vm new_scripts
  | dispatchEvent name evt_id => exact hinv
  | loadScript s =>
    show store_compiled_inv compile
      ((match compile_script compile vm s with
        | (vm2, some st) => run_script evalRes vm2 st.script.id
        | (vm2, none) => vm2).script_store)
    cases hc : compile_script compile vm s with
    | mk vm2 opt =>
      have hfst : store_compiled_inv compile vm2.script_store := by
        have hres := compile_script_fst_inv compile vm s hinv
        rw [hc] at hres
        exact hres
      cases opt with
      | some st => exact run_script_inv compile evalRes vm2 st.script.id hfst
      | none => exact hfst
  | updateScript s =>
    show store_compiled_inv compile
      ((if (vm.script_store.scripts.map (fun v => v.script)).any
          (fun old => old.id == s.id) then
        restart compile evalRes vm
          ((vm.script_store.scripts.map (fun v => v.script)).map
            (fun old => if old.id == s.id then s else old))
      else vm).script_store)
    split
    · exact restart_inv compile evalRes vm _
    · exact hinv
  | unloadScripts ss => exact restart_inv compile evalRes vm _

theorem handle_cmds_inv (compile : String → Except String String)
    (evalRes : Nat → Except String Unit) (cmds : List VmCommandM)
    (vm : VmState) (hinv : store_compiled_inv compile vm.script_store) :
    store_compiled_inv compile
      ((handle_cmds compile evalRes vm cmds).script_store) := by
  induction cmds generalizing vm with
  | nil => simpa [handle_cmds] using hinv
  | cons cmd rest ih =>
    simp only [handle_cmds, List.foldl_cons]
    exact ih _ (handle_cmd_inv compile evalRes vm cmd hinv)

/-- Claim C4 (counterexample): for a `LoadScript` whose script fails to compile,
the script is *not* marked `Failed`: it is not stored at all (the store
stays empty and no entry has load state `Failed`), while the compile error
is logged to the tenant log. -/
theorem c4_not_marked_failed_counterexample :
    (handle_cmd compile0 evalRes0 vm0
      (VmCommandM.loadScript s_bad)).script_store.scripts = [] ∧
    ((handle_cmd compile0 evalRes0 vm0
      (VmCommandM.loadScript s_bad)).script_store.scripts.any
        (fun st => st.load_state == ScriptLoadState.failed)) = false ∧
    (handle_cmd compile0 evalRes0 vm0 (VmCommandM.loadScript s_bad)).log =
      [("Script compilation failed for badscript.ts: compile error")] := by
  refine ⟨rfl, rfl, rfl⟩

/-- Claim C4 (amended): for a `LoadScript` whose script fails to compile, the
compile error is logged to the tenant log and the script is not added to
the store (so it carries no load state, in particular it is not marked
`Failed`); the command loop keeps processing subsequent commands from
exactly the log-updated state; and the store invariant that only
successfully compiled scripts are stored (compile errors are never
cached) is preserved across the whole remaining command sequence. -/
theorem compile_error_spec (compile : String → Except String String)
    (evalRes : Nat → Except String Unit) (vm : VmState) (s : Script)
    (e : String) (cmds : List VmCommandM)
    (hc : compile s.source = Except.error e) :
    (compile_script compile vm s =
      ({ vm with log := vm.log ++
        [("Script compilation failed for " ++ s.name ++ ".ts: " ++ e)] },
        none)) ∧
    (handle_cmds compile evalRes vm (VmCommandM.loadScript s :: cmds) =
      handle_cmds compile evalRes
        { vm with log := vm.log ++
          [("Script compilation failed for " ++ s.name ++ ".ts: " ++ e)] }
        cmds) ∧
    (store_compiled_inv compile vm.script_store →
      store_compiled_inv compile
        (handle_cmds compile evalRes vm
          (VmCommandM.loadScript s :: cmds)).script_store) := by
  have h1 : compile_script compile vm s =
      ({ vm with log := vm.log ++
        [("Script compilation failed for " ++ s.name ++ ".ts: " ++ e)] },
        none) := by
    unfold compile_script compile_add_script
    rw [hc]
  have h2 : handle_cmds compile evalRes vm (VmCommandM.loadScript s :: cmds) =
      handle_cmds compile evalRes
        { vm with log := vm.log ++
          [("Script compilation failed for " ++ s.name ++ ".ts: " ++ e)] }
        cmds := by
    simp only [handle_cmds, List.foldl_cons]
    congr 1
    show (match compile_script compile vm s with
      | (vm2, some st) => run_script evalRes vm2 st.script.id
      | (vm2, none) => vm2) = _
    rw [h1]
  refine ⟨h1, h2, ?_⟩
  intro hinv
  rw [h2]
  exact handle_cmds_inv compile evalRes cmds _ hinv

/-- Witness for `compile_error_spec`: loading the non-compiling script
`s_bad` under `compile0` only appends the compile error to the log. -/
theorem compile_error_spec_witness :
    handle_cmds compile0 evalRes0 vm0 [VmCommandM.loadScript s_bad] =
      handle_cmds compile0 evalRes0
        { vm0 with log := vm0.log ++
          [("Script compilation failed for " ++ s_bad.name ++ ".ts: " ++
            "compile error")] }
        [] :=
  (compile_error_spec compile0 evalRes0 vm0 s_bad "compile error" []
    (by rfl)).2.1

/-- Claim C10: an `UpdateScript(s)` command with no stored script of id `s.id`
is a no-op: the entire VM state (script store, log, events, isolate
incarnation, dispatches) is returned unchanged and no restart happens;
when some stored script has id `s.id`, the command restarts the VM with
the stored script list in which every script of that id is replaced by
`s`. -/
theorem update_script_spec (compile : String → Except String String)
    (evalRes : Nat → Except String Unit) (vm : VmState) (s : Script) :
    ((∀ st ∈ vm.script_store.scripts, st.script.id ≠ s.id) →
      handle_cmd compile evalRes vm (VmCommandM.updateScript s) = vm) ∧
    ((∃ st ∈ vm.script_store.scripts, st.script.id = s.id) →
      handle_cmd compile evalRes vm (VmCommandM.updateScript s) =
        restart compile evalRes vm
          (vm.script_store.scripts.map
            (fun old => if old.script.id == s.id then s else old.script))) := by
  constructor
  · intro hall
    show (if (vm.script_store.scripts.map (fun v => v.script)).any
        (fun old => old.id == s.id) then
      restart compile evalRes vm
        ((vm.script_store.scripts.map (fun v => v.script)).map
          (fun old => if old.id == s.id then s else old))
    else vm) = vm
    rw [if_neg]
    intro hany
    rw [List.any_eq_true] at hany
    obtain ⟨x, hx, hpx⟩ := hany
    rw [List.mem_map] at hx
    obtain ⟨st, hst, hfx⟩ := hx
    subst hfx
    exact hall st hst (by simpa using hpx)
  · intro hex
    obtain ⟨st, hst, hid⟩ := hex
    show (if (vm.script_store.scripts.map (fun v => v.script)).any
        (fun old => old.id == s.id) then
      restart compile evalRes vm
        ((vm.script_store.scripts.map (fun v => v.script)).map
          (fun old => if old.id == s.id then s else old))
    else vm) = _
    rw [if_pos]
    · rw [List.map_map]
      rfl
    · rw [List.any_eq_true]
      exact ⟨st.script, List.mem_map_of_mem _ hst, by simpa using hid⟩

/-- Witness for `update_script_spec`: updating a script id that is not in
the (empty) store leaves the VM state unchanged. -/
theorem update_script_spec_witness :
    handle_cmd compile0 evalRes0 vm0 (VmCommandM.updateScript s_good) = vm0 :=
  (update_script_spec compile0 evalRes0 vm0 s_good).1
    (by intro st hst; simp [vm0] at hst)
